import Mathlib

/-!
Verification development for the `rnc-project-discovery` static-analysis tool
(`discover.py`).  The Python source is shallowly embedded: each analysed
function becomes a total Lean function over explicit data; file reads, the
directory walk and the external `javalang` parser are modelled as explicit
inputs (an `Except`/`Option` read result, a list of walked files, a parsed
statement list).  Python regular-expression searches are modelled by concrete
recursive matchers over `List Char`; the character classes `\w` and `\s` are
modelled over their ASCII portion, which is what the analysed Java/config
texts use.
-/

set_option maxRecDepth 4000

/-! ### Character and list-of-character utilities -/

/-- ASCII word character, modelling the regex class `\w` (ASCII part). -/
def isWordChar (c : Char) : Bool := c.isAlphanum || c == '_'

/-- ASCII whitespace, modelling Python's `str.strip` / regex `\s` (ASCII part). -/
def isSpaceChar (c : Char) : Bool :=
  c == ' ' || c == '\t' || c == '\n' || c == '\r' || c == '\x0b' || c == '\x0c'

/-- `startsWithL l p` holds when `p` is an initial segment of `l`. -/
def startsWithL : List Char → List Char → Bool
  | _, [] => true
  | [], _ :: _ => false
  | a :: as, b :: bs => a == b && startsWithL as bs

/-- Remove the initial segment `p` from `l`, when it is one. -/
def dropLead : List Char → List Char → Option (List Char)
  | l, [] => some l
  | [], _ :: _ => none
  | a :: as, b :: bs => if a == b then dropLead as bs else none

/-- Substring search (regex search of a literal with no metacharacters). -/
def containsSub : List Char → List Char → Bool
  | [], pat => pat.isEmpty
  | h :: t, pat => startsWithL (h :: t) pat || containsSub t pat

/-- `l` ends with the literal `suf`. Models Python `str.endswith`. -/
def endsWithL (l suf : List Char) : Bool := startsWithL l.reverse suf.reverse

/-- The literal `lit` occurs at the head of `l` and is followed by a word
boundary (end of input or a non-word character).  Models matching
`lit\b` anchored at the current position. -/
def wordAt (lit : List Char) (l : List Char) : Bool :=
  match dropLead l lit with
  | none => false
  | some [] => true
  | some (c :: _) => !isWordChar c

/-- Regex search for `lit\b` (trailing word boundary only). -/
def searchTrailB (lit : List Char) : List Char → Bool
  | [] => wordAt lit []
  | c :: cs => wordAt lit (c :: cs) || searchTrailB lit cs

/-- Scanner for `\bkw\b` where `kw` consists of word characters: `prev` is
the character just before the current position (`none` at the start). -/
def searchWordRec (kw : List Char) : Option Char → List Char → Bool
  | _, [] => false
  | prev, c :: cs =>
    ((match prev with
      | none => true
      | some p => !isWordChar p) && wordAt kw (c :: cs))
      || searchWordRec kw (some c) cs

/-- Regex search for `\bkw\b` on a string. -/
def searchWord (kw : String) (s : String) : Bool := searchWordRec kw.data none s.data

/-- Regex search for `lit\s+` : the literal followed by a whitespace character. -/
def searchLitSpace (lit : List Char) : List Char → Bool
  | [] => false
  | c :: cs =>
    (match dropLead (c :: cs) lit with
     | some (d :: _) => isSpaceChar d
     | _ => false) || searchLitSpace lit cs

/-- After consuming zero or more whitespace characters, the next character is
an opening parenthesis (the `\s*\(` tail of `catch\s*\(`). -/
def spacesThenParen : List Char → Bool
  | [] => false
  | c :: cs => if isSpaceChar c then spacesThenParen cs else c == '('

/-- Regex search for `catch\s*\(`. -/
def searchCatchParen : List Char → Bool
  | [] => false
  | c :: cs =>
    (match dropLead (c :: cs) "catch".data with
     | some rest => spacesThenParen rest
     | none => false) || searchCatchParen cs

/-- An arithmetic operator character occurs before any semicolon
(the `[^;]*[\+\-\*/%]` tail of the arithmetic-in-return pattern). -/
def opBeforeSemi : List Char → Bool
  | [] => false
  | c :: cs =>
    if c == ';' then false
    else if c == '+' || c == '-' || c == '*' || c == '/' || c == '%' then true
    else opBeforeSemi cs

/-- Regex search for `return\s+[^;]*[\+\-\*/%]` (arithmetic in a return). -/
def searchReturnCalc : List Char → Bool
  | [] => false
  | c :: cs =>
    (match dropLead (c :: cs) "return".data with
     | some (d :: rest) => isSpaceChar d && opBeforeSemi rest
     | _ => false) || searchReturnCalc cs

/-- Python `'\n'`-splitting of a character list: `"a\nb".split('\n')`.
An empty input yields one empty line, exactly as in Python. -/
def splitLines : List Char → List (List Char)
  | [] => [[]]
  | c :: cs =>
    if c == '\n' then [] :: splitLines cs
    else
      match splitLines cs with
      | [] => [[c]]
      | l :: ls => (c :: l) :: ls

/-- Python `str.strip` on a line (ASCII whitespace). -/
def stripL (l : List Char) : List Char :=
  ((l.dropWhile isSpaceChar).reverse.dropWhile isSpaceChar).reverse

/-- A line that is non-blank after stripping and is not a `//` comment line;
these are the lines counted by the text fallback. -/
def isCodeLine (l : List Char) : Bool :=
  let t := stripL l
  !t.isEmpty && !startsWithL t ['/', '/']

/-- Number of non-blank, non-comment-only lines of the rendered body text.
Models `len([line for line in method_body.split('\n') if line.strip() and not
line.strip().startswith('//')])`. -/
def countCodeLines (s : String) : Nat :=
  ((splitLines s.data).filter isCodeLine).length

/-! ### Statements and method nodes (the `javalang` view of a method) -/

/-- The statement kinds `has_business_logic_in_method` distinguishes among a
method body's top-level statements.  All other `javalang` statement kinds are
collapsed into `otherStmt`, which is exactly how the source treats them. -/
inductive Stmt where
  | ifStmt
  | whileStmt
  | forStmt
  | doStmt
  | switchStmt
  | tryStmt
  | throwStmt
  | localVarDecl
  | returnStmt
  | otherStmt
deriving DecidableEq

/-- Top-level statements that make `has_business_logic_in_method` return
true immediately (the `isinstance` tuple of conditional/loop/switch/try). -/
def isControlStmt : Stmt → Bool
  | .ifStmt | .whileStmt | .forStmt | .doStmt | .switchStmt | .tryStmt => true
  | _ => false

/-- A method declaration as the classifier sees it.
`hasBody` models `hasattr(method_node, 'body')`; `body = none` models
`method_node.body is None`; `body = some []` models an empty statement list
(falsy in Python, but not `None`).  `bodyText` models `str(method_node.body)`,
the serialized textual form used both as a size proxy and as the text the
fallback regexes search.  `treeFault` models `javalang` raising an exception
inside the AST inspection (the `try` block of `has_business_logic_in_method`). -/
structure MethodNode where
  name : String
  modifiers : List String
  hasBody : Bool
  body : Option (List Stmt)
  bodyText : String
  treeFault : Bool
deriving DecidableEq

/-- The accessor-name heuristic: the method name starts with `get`, `set`
or `is` (both paths of the classifier use exactly this test). -/
def isAccessorName (name : String) : Bool :=
  startsWithL name.data "get".data || startsWithL name.data "set".data ||
    startsWithL name.data "is".data

/-- The scan over the body's top-level statements: `none` models the early
`return True` on a control-flow or throw statement; otherwise the pair of the
final local-variable-declaration and return-statement counters. -/
def scanStmts : List Stmt → Nat → Nat → Option (Nat × Nat)
  | [], v, r => some (v, r)
  | s :: rest, v, r =>
    if isControlStmt s then none
    else if s = Stmt.throwStmt then none
    else
      scanStmts rest (if s = Stmt.localVarDecl then v + 1 else v)
        (if s = Stmt.returnStmt then r + 1 else r)

/-- `has_business_logic_in_method` (discover.py lines 158-215): AST-based
business-logic check.  The first guard models `not hasattr(...) or not
method_node.body` (falsy: `None` or the empty list); the internal fault of the
`try` block is modelled by `treeFault` and absorbed into `false`, exactly as
the `except` clause does. -/
def has_business_logic_in_method (m : MethodNode) : Bool :=
  match m.hasBody, m.body with
  | false, _ => false
  | true, none => false
  | true, some stmts =>
    if stmts.isEmpty then false
    else if isAccessorName m.name then false
    else if m.treeFault then false
    else
      let body_size := m.bodyText.length
      match scanStmts stmts 0 0 with
      | none => true
      | some (v, r) =>
        if (3 ≤ v ∧ 0 < r) ∨ 1000 < body_size then true
        else if 2 ≤ v ∧ 0 < r ∧ 500 < body_size then true
        else false

/-- The fixed regex list of the text fallback (discover.py lines 247-255),
each paired with its concrete matcher. -/
def business_rule_text_patterns : List (String × (String → Bool)) :=
  [ ("\\bif\\b", fun s => searchWord "if" s),
    ("\\belse\\b", fun s => searchWord "else" s),
    ("\\bswitch\\b", fun s => searchWord "switch" s),
    ("\\bcase\\b", fun s => searchWord "case" s),
    ("\\bfor\\b", fun s => searchWord "for" s),
    ("\\bwhile\\b", fun s => searchWord "while" s),
    ("\\bdo\\b", fun s => searchWord "do" s),
    ("query\\(", fun s => containsSub s.data "query(".data),
    ("execute\\(", fun s => containsSub s.data "execute(".data),
    ("save\\(", fun s => containsSub s.data "save(".data),
    ("delete\\(", fun s => containsSub s.data "delete(".data),
    ("\\.add\\(", fun s => containsSub s.data ".add(".data),
    ("\\.remove\\(", fun s => containsSub s.data ".remove(".data),
    ("\\.set\\(", fun s => containsSub s.data ".set(".data),
    ("\\.put\\(", fun s => containsSub s.data ".put(".data),
    ("throw\\s+", fun s => searchLitSpace "throw".data s.data),
    ("catch\\s*\\(", fun s => searchCatchParen s.data),
    ("return\\s+[^;]*[\\+\\-\\*/%]", fun s => searchReturnCalc s.data),
    ("\\.compareTo\\(", fun s => containsSub s.data ".compareTo(".data),
    ("\\.equals\\(", fun s => containsSub s.data ".equals(".data),
    ("\\.contains\\(", fun s => containsSub s.data ".contains(".data) ]

/-- `is_business_rule_method` (discover.py lines 218-261).  `hasJavalang`
models the module-level `HAS_JAVALANG` flag.  Note the guard here is
`method_node.body is None`, not falsiness, so an empty statement list falls
through to the string fallback.  The `try/except: pass` around the AST attempt
is subsumed: `has_business_logic_in_method` already absorbs its internal fault
into `false`, after which the fallback runs. -/
def is_business_rule_method (hasJavalang : Bool) (m : MethodNode) : Bool :=
  match m.hasBody, m.body with
  | false, _ => false
  | true, none => false
  | true, some _ =>
    if isAccessorName m.name then false
    else if hasJavalang && has_business_logic_in_method m then true
    else
      let method_body := m.bodyText
      if countCodeLines method_body < 2 then false
      else business_rule_text_patterns.any (fun p => p.2 method_body)

/-- The text fallback in isolation (same expression as the final branch of
`is_business_rule_method`), used to state how the two tiers compose. -/
def textFallback (s : String) : Bool :=
  if countCodeLines s < 2 then false
  else business_rule_text_patterns.any (fun p => p.2 s)

/-! ### Pattern classification of files (`analyze_java_file`) -/

/-- Scanner for `extends.*Controller\b`: after `extends`, any run of
non-newline characters (regex `.` does not cross a newline), then
`Controller` followed by a word boundary. -/
def ctlAfter : List Char → Bool
  | [] => false
  | c :: cs => wordAt "Controller".data (c :: cs) || (c != '\n' && ctlAfter cs)

/-- Regex search for `extends.*Controller\b`. -/
def searchExtCtl : List Char → Bool
  | [] => false
  | c :: cs =>
    (match dropLead (c :: cs) "extends".data with
     | some rest => ctlAfter rest
     | none => false) || searchExtCtl cs

/-- `ENTITY_PATTERNS` (discover.py lines 47-50): the regex source strings
exactly as stored by the script, paired with concrete matchers. -/
def ENTITY_PATTERNS : List (String × (String → Bool)) :=
  [ ("@Entity\\b", fun s => searchTrailB "@Entity".data s.data),
    ("@Table\\b", fun s => searchTrailB "@Table".data s.data) ]

/-- `BUSINESS_PATTERNS` (discover.py lines 52-59). -/
def BUSINESS_PATTERNS : List (String × (String → Bool)) :=
  [ ("@Named\\b", fun s => searchTrailB "@Named".data s.data),
    ("@Controller\\b", fun s => searchTrailB "@Controller".data s.data),
    ("@Service\\b", fun s => searchTrailB "@Service".data s.data),
    ("@RestController\\b", fun s => searchTrailB "@RestController".data s.data),
    ("@ManagedBean\\b", fun s => searchTrailB "@ManagedBean".data s.data),
    ("extends.*Controller\\b", fun s => searchExtCtl s.data) ]

/-- The pattern strings of `pats` whose regex matches `content`
(the list comprehension `[p for p in PATTERNS if re.search(p, content)]`). -/
def matchedOf (pats : List (String × (String → Bool))) (content : String) : List String :=
  (pats.filter (fun p => p.2 content)).map Prod.fst

/-- The module-level accumulators `entity_classes`, `business_components`
and `analysis_log` that `analyze_java_file` mutates.  The two dictionaries
are modelled as insertion-ordered association lists (each walked file path is
visited once). -/
structure FileState where
  entity_classes : List (String × List String)
  business_components : List (String × List String)
  analysis_log : String
deriving DecidableEq

/-- `analyze_java_file` (discover.py lines 70-88).  `readRes` models the
outcome of opening and reading the file: `Except.error e` is the caught read
exception rendered as text. -/
def analyze_java_file (filepath : String) (readRes : Except String String)
    (st : FileState) : FileState :=
  match readRes with
  | .error e =>
    ⟨st.entity_classes, st.business_components,
      st.analysis_log ++ "ERRO ao ler " ++ filepath ++ ": " ++ e ++ "\n"⟩
  | .ok content =>
    let found_entity_patterns := matchedOf ENTITY_PATTERNS content
    let st1 : FileState :=
      if !found_entity_patterns.isEmpty then
        ⟨st.entity_classes ++ [(filepath, found_entity_patterns)],
          st.business_components, st.analysis_log⟩
      else st
    if found_entity_patterns.isEmpty then
      let found_business_patterns := matchedOf BUSINESS_PATTERNS content
      if !found_business_patterns.isEmpty then
        ⟨st1.entity_classes,
          st1.business_components ++ [(filepath, found_business_patterns)],
          st1.analysis_log⟩
      else st1
    else st1

/-- The classification pass of `run_analysis` restricted to `.java` files:
each walked file is a path paired with its read outcome, processed in
traversal order. -/
def run_java_files (files : List (String × Except String String))
    (st : FileState) : FileState :=
  match files with
  | [] => st
  | f :: rest => run_java_files rest (analyze_java_file f.1 f.2 st)

/-! ### Database-hint scan (`capture_database_info`) -/

/-- ASCII lowercasing of one character (the `re.IGNORECASE` searches are
modelled by lowercasing the content; all three patterns are lowercase ASCII). -/
def lowerChar (c : Char) : Char :=
  if 'A' ≤ c && c ≤ 'Z' then Char.ofNat (c.toNat + 32) else c

/-- Lowercased character list of a string. -/
def lowerStr (s : String) : List Char := s.data.map lowerChar

/-- `.*pat` within the current line: an occurrence of `pat` reachable without
crossing a newline. -/
def sameLineHas (pat : List Char) : List Char → Bool
  | [] => startsWithL [] pat
  | c :: cs => startsWithL (c :: cs) pat || (c != '\n' && sameLineHas pat cs)

/-- The `[:/]?.*url` tail of the first JDBC alternative, anchored at the
current position. -/
def jdbcAfter (l : List Char) : Bool :=
  (match l with
   | c :: cs => (c == ':' || c == '/') && sameLineHas "url".data cs
   | [] => false) || sameLineHas "url".data l

/-- Regex search for `jdbc[:/]?.*url`. -/
def searchJdbcA : List Char → Bool
  | [] => false
  | c :: cs =>
    (match dropLead (c :: cs) "jdbc".data with
     | some rest => jdbcAfter rest
     | none => false) || searchJdbcA cs

/-- Regex search for `spring.datasource.url`, where each unescaped `.`
matches any non-newline character. -/
def searchSpringDSUrl : List Char → Bool
  | [] => false
  | c :: cs =>
    (match dropLead (c :: cs) "spring".data with
     | some (c1 :: r1) =>
       c1 != '\n' &&
         (match dropLead r1 "datasource".data with
          | some (c2 :: r2) => c2 != '\n' && startsWithL r2 "url".data
          | _ => false)
     | _ => false) || searchSpringDSUrl cs

/-- The matched hint-category names for one configuration file's content
(discover.py lines 107-113), in the order the script appends them. -/
def db_categories (content : String) : List String :=
  let lc := lowerStr content
  (if searchJdbcA lc || containsSub lc "jdbc:".data || searchSpringDSUrl lc then
    ["Possível URL JDBC"] else []) ++
  (if containsSub lc "hibernate.dialect".data then ["Dialeto Hibernate/JPA"] else []) ++
  (if containsSub lc "spring.datasource".data then ["Configuração Spring Datasource"] else [])

/-- Python `', '.join` / `'\n'.join`. -/
def joinWith (sep : String) : List String → String
  | [] => ""
  | [x] => x
  | x :: y :: xs => x ++ sep ++ joinWith sep (y :: xs)

/-- One file met by the configuration scan: `file` is the bare file name the
walker yields (so `os.path.basename(file)` is `file` itself), `filepath` the
joined path, and `content = none` models a read that raised (silently
skipped by the `except: pass`). -/
structure ConfigFile where
  file : String
  filepath : String
  content : Option String
deriving DecidableEq

/-- The configuration extensions list of `capture_database_info`. -/
def config_file_exts : List String := [".properties", ".xml", ".yml", ".yaml"]

/-- The report line contributed by one walked file, when any: the file must
have a configuration extension, be readable, and match at least one hint
category (discover.py lines 101-117). -/
def db_line (c : ConfigFile) : Option String :=
  if config_file_exts.any (fun ext => endsWithL c.file.data ext.data) then
    match c.content with
    | none => none
    | some content =>
      if (db_categories content).isEmpty then none
      else
        some ("- **" ++ c.file ++ "** (" ++ joinWith ", " (db_categories content)
          ++ ") em `" ++ c.filepath ++ "`")
  else none

/-- `capture_database_info` (discover.py lines 94-122), over the list of
files the `os.walk` pass yields, in traversal order. -/
def capture_database_info (files : List ConfigFile) : String :=
  let db_info_list := files.filterMap db_line
  if !db_info_list.isEmpty then
    "### Arquivos de Configuração de Banco de Dados Encontrados\n"
      ++ joinWith "\n" db_info_list
  else
    "Não foram encontrados arquivos de configuração de DB comuns (.properties, .xml, .yml)."

/-! ### AST-based class metrics (`analyze_java_file_ast`) -/

/-- The dataclass `BusinessRuleMetrics` (discover.py lines 32-44). -/
structure BusinessRuleMetrics where
  class_name : String
  file_path : String
  controller_type : String
  public_methods : Nat
  business_methods : Nat
  business_method_names : List String
deriving DecidableEq

/-- A declared class/interface as `javalang` presents it: its name and its
method declarations in declaration order. -/
structure TypeDecl where
  name : String
  methods : List MethodNode
deriving DecidableEq

/-- The per-type counting loop of `analyze_java_file_ast` (lines 291-299):
public-method count, business-method count, and the business-method names in
declaration order. -/
def count_methods (hj : Bool) : List MethodNode → Nat × Nat × List String
  | [] => (0, 0, [])
  | m :: rest =>
    let acc := count_methods hj rest
    if m.modifiers.contains "public" then
      if is_business_rule_method hj m then
        (acc.1 + 1, acc.2.1 + 1, m.name :: acc.2.2)
      else (acc.1 + 1, acc.2.1, acc.2.2)
    else acc

/-- The role label derived from the class name (lines 301-311); first
substring match wins, in the source's precedence order. -/
def class_type_of (class_name : String) : String :=
  if containsSub class_name.data "Controller".data then "Controller"
  else if containsSub class_name.data "Service".data then "Service"
  else if containsSub class_name.data "Repository".data then "Repository"
  else if containsSub class_name.data "Impl".data then "Implementation"
  else "Class"

/-- `analyze_java_file_ast` (discover.py lines 264-328).  `hj` models
`HAS_JAVALANG`; `parsed = none` models an unreadable file, blank content, or
a `javalang.parse.parse` fault (all of which make the source return `None`);
otherwise the declared types in file order. -/
def analyze_java_file_ast (hj : Bool) (file_path : String)
    (parsed : Option (List TypeDecl)) : Option (List BusinessRuleMetrics) :=
  if !hj then none
  else
    match parsed with
    | none => none
    | some tds =>
      let metrics_list := tds.filterMap (fun td =>
        let c := count_methods hj td.methods
        if 0 < c.1 then
          some ⟨td.name, file_path, class_type_of td.name, c.1, c.2.1, c.2.2⟩
        else none)
      if metrics_list.isEmpty then none else some metrics_list

/-! ### Aggregation (`analyze_business_rules`) -/

/-- The dictionary returned by `analyze_business_rules` (lines 370-380),
with the two averages as exact rationals (Python float division is modelled
exactly; the claims concern the guarded formula, not rounding). -/
structure AggregateResult where
  all_metrics : List BusinessRuleMetrics
  controllers : List BusinessRuleMetrics
  services : List BusinessRuleMetrics
  total_classes : Nat
  total_controllers : Nat
  total_services : Nat
  avg_business_methods_per_controller : ℚ
  avg_business_methods_per_service : ℚ
  total_business_methods : Nat
deriving DecidableEq

/-- `'Controller' in metric.controller_type` (substring containment). -/
def hasSubCtl (t : String) : Bool := containsSub t.data "Controller".data

/-- `'Service' in metric.controller_type`. -/
def hasSubSvc (t : String) : Bool := containsSub t.data "Service".data

/-- The `if/elif` classification loop of `analyze_business_rules`
(lines 349-352), yielding the controllers and the services sublists in
traversal order. -/
def classify_metrics : List BusinessRuleMetrics →
    List BusinessRuleMetrics × List BusinessRuleMetrics
  | [] => ([], [])
  | m :: rest =>
    let acc := classify_metrics rest
    if hasSubCtl m.controller_type then (m :: acc.1, acc.2)
    else if hasSubSvc m.controller_type then (acc.1, m :: acc.2)
    else acc

/-- Sum of the `business_methods` fields. -/
def sumBusinessMethods : List BusinessRuleMetrics → Nat
  | [] => 0
  | m :: rest => m.business_methods + sumBusinessMethods rest

/-- The statistics part of `analyze_business_rules` (discover.py lines
354-380), over the flattened list of records collected from the walk (a
`None` per-file result contributes no records).  Each average is initialised
to `0` and only replaced by a quotient when the subset is non-empty, exactly
as the source guards its divisions. -/
def analyze_business_rules (all_metrics : List BusinessRuleMetrics) : AggregateResult :=
  let controllers := (classify_metrics all_metrics).1
  let services := (classify_metrics all_metrics).2
  let avg_c : ℚ :=
    if controllers.isEmpty then 0
    else (sumBusinessMethods controllers : ℚ) / (controllers.length : ℚ)
  let avg_s : ℚ :=
    if services.isEmpty then 0
    else (sumBusinessMethods services : ℚ) / (services.length : ℚ)
  let total : Nat := if all_metrics.isEmpty then 0 else sumBusinessMethods all_metrics
  ⟨all_metrics, controllers, services, all_metrics.length, controllers.length,
    services.length, avg_c, avg_s, total⟩

/-! ### Spec-side helper definitions -/

/-- Some top-level statement of the body is a conditional, loop, switch, try
or throw statement (the early-true conditions of the tree inspection). -/
def hasControlOrThrow : List Stmt → Bool
  | [] => false
  | s :: rest =>
    isControlStmt s || decide (s = Stmt.throwStmt) || hasControlOrThrow rest

/-- Number of top-level local-variable-declaration statements. -/
def countLocalVars : List Stmt → Nat
  | [] => 0
  | s :: rest => (if s = Stmt.localVarDecl then 1 else 0) + countLocalVars rest

/-- Number of top-level return statements. -/
def countReturns : List Stmt → Nat
  | [] => 0
  | s :: rest => (if s = Stmt.returnStmt then 1 else 0) + countReturns rest

/-! ### Concrete inputs used by counterexamples and witnesses -/

/-- A method whose statement tree is available and fault-free, whose tree
verdict is false (two plain expression statements, small body), but whose
rendered text has two code lines and a `.add(` call. -/
def c1Method : MethodNode :=
  ⟨"computeTotal", ["public"], true, some [Stmt.otherStmt, Stmt.otherStmt],
    "itens.add(a);\nitens.add(b);", false⟩

/-- A method whose body is exactly one top-level `if` statement. -/
def c2SingleIf : MethodNode :=
  ⟨"processOrder", ["public"], true, some [Stmt.ifStmt], "[IfStatement]", false⟩

/-- Three local declarations, one return, no control flow, small body. -/
def c2ThreeVars : MethodNode :=
  ⟨"computeTotals", ["public"], true,
    some [Stmt.localVarDecl, Stmt.localVarDecl, Stmt.localVarDecl, Stmt.returnStmt],
    "[LocalVariableDeclaration, LocalVariableDeclaration, LocalVariableDeclaration, ReturnStatement]",
    false⟩

/-- The same method with only two local declarations; the rendered body is a
single line of 67 characters. -/
def c2TwoVars : MethodNode :=
  ⟨"computeTotals", ["public"], true,
    some [Stmt.localVarDecl, Stmt.localVarDecl, Stmt.returnStmt],
    "[LocalVariableDeclaration, LocalVariableDeclaration, ReturnStatement]", false⟩

/-- An accessor-named method with a rich, control-flow-laden body. -/
def c3Method : MethodNode :=
  ⟨"getTotalComDesconto", ["public"], true, some [Stmt.ifStmt, Stmt.throwStmt],
    "if (x > 0) return y;\nthrow new Erro();", false⟩

/-- A method with an empty statement list; `str([])` renders as `[]`. -/
def c4Method : MethodNode := ⟨"processarTudo", ["public"], true, some [], "[]", false⟩

/-- A method whose tree verdict is false but whose text matches `\bif\b`. -/
def c5Method : MethodNode :=
  ⟨"aplicarDesconto", ["public"], true, some [Stmt.otherStmt, Stmt.otherStmt],
    "if (valor > 100)\n  pedido.save();", false⟩

/-- The empty module-level classification state. -/
def fsEmpty : FileState := ⟨[], [], ""⟩

/-- A file content matching both an entity pattern and a business pattern. -/
def c6BothContent : String := "@Entity @Table @Service public class Cliente"

/-- A file content matching no pattern in either list. -/
def c6NoneContent : String := "public class Util"

/-- A configuration file whose content matches two hint categories. -/
def c7File : ConfigFile :=
  ⟨"application.properties", "/proj/src/application.properties",
    some "spring.datasource.url=jdbc:mysql://localhost:3306/loja"⟩

/-- A class-metrics record whose role label contains `Controller`. -/
def c9Controller : BusinessRuleMetrics :=
  ⟨"PedidoController", "/proj/PedidoController.java", "Controller", 3, 2,
    ["aprovarPedido", "cancelarPedido"]⟩

/-- A public method with a top-level `if`, classified as a business rule. -/
def c10Method : MethodNode :=
  ⟨"aprovarPedido", ["public"], true, some [Stmt.ifStmt, Stmt.returnStmt],
    "if (total > limite) return false;\nreturn true;", false⟩

/-- A declared type with one public business-rule method. -/
def c10Type : TypeDecl := ⟨"PedidoService", [c10Method]⟩

/-- The record `analyze_java_file_ast` produces for `c10Type`. -/
def c10Record : BusinessRuleMetrics :=
  ⟨"PedidoService", "/proj/PedidoService.java", "Service", 1, 1, ["aprovarPedido"]⟩

/-! ### Lemmas about the statement scan -/

theorem scanStmts_of_trigger : ∀ (stmts : List Stmt) (v r : Nat),
    hasControlOrThrow stmts = true → scanStmts stmts v r = none := by
  intro stmts
  induction stmts with
  | nil => intro v r h; simp [hasControlOrThrow] at h
  | cons s rest ih =>
    intro v r h
    simp only [hasControlOrThrow, Bool.or_eq_true, decide_eq_true_eq] at h
    simp only [scanStmts]
    by_cases hc : isControlStmt s = true
    · simp [hc]
    · by_cases ht : s = Stmt.throwStmt
      · simp [hc, ht]
      · have hr : hasControlOrThrow rest = true := by
          rcases h with (h | h) | h
          · exact absurd h hc
          · exact absurd h ht
          · exact h
        simp [hc, ht, ih _ _ hr]

theorem scanStmts_of_no_trigger : ∀ (stmts : List Stmt) (v r : Nat),
    hasControlOrThrow stmts = false →
    scanStmts stmts v r = some (v + countLocalVars stmts, r + countReturns stmts) := by
  intro stmts
  induction stmts with
  | nil => intro v r h; simp [scanStmts, countLocalVars, countReturns]
  | cons s rest ih =>
    intro v r h
    simp only [hasControlOrThrow, Bool.or_eq_false_iff, decide_eq_false_iff_not] at h
    obtain ⟨⟨hc, ht⟩, hr⟩ := h
    simp only [scanStmts, hc, ht, if_false, Bool.false_eq_true, ite_false]
    rw [ih _ _ hr]
    simp only [countLocalVars, countReturns]
    by_cases h1 : s = Stmt.localVarDecl <;> by_cases h2 : s = Stmt.returnStmt <;>
      simp [h1, h2] <;> omega

/-! ### Claim C1 -/

/-- Claim C1, counterexample: for `c1Method` the statement tree is available
(`body = some [...]`), the tree inspection completes without fault
(`treeFault = false`) and returns false, yet the classifier returns true —
the text heuristics are consulted even though the tree path completed
normally, so the classifier's result is not the tree verdict. -/
theorem c1_counterexample :
    c1Method.body = some [Stmt.otherStmt, Stmt.otherStmt] ∧
    c1Method.treeFault = false ∧
    has_business_logic_in_method c1Method = false ∧
    is_business_rule_method true c1Method = true := by decide

/-- Claim C1 (amended): for every method with a body and a non-accessor name,
the classifier returns true exactly when the tree inspection's verdict is
true or the text heuristics match (the text heuristics are also consulted
when the tree verdict is false, not only when the tree is unavailable or
faulted); an internal fault of the tree path is absorbed into a false tree
verdict, never propagated, after which the text heuristics decide. -/
theorem c1_two_tier_composition : ∀ (m : MethodNode) (stmts : List Stmt),
    m.hasBody = true → m.body = some stmts → isAccessorName m.name = false →
    (is_business_rule_method true m =
        (has_business_logic_in_method m || textFallback m.bodyText) ∧
      (m.treeFault = true → has_business_logic_in_method m = false)) := by
  intro m stmts hb hs hn
  rcases m with ⟨nm, mods, hB, bd, bt, tf⟩
  simp only at hb hs hn
  subst hb; subst hs
  constructor
  · simp only [is_business_rule_method, hn, Bool.false_eq_true, if_false, Bool.true_and]
    cases hbl : has_business_logic_in_method
        ⟨nm, mods, true, some stmts, bt, tf⟩ <;>
      simp [hbl, textFallback]
  · intro hf
    simp only at hf
    subst hf
    by_cases hE : stmts.isEmpty <;>
      simp [has_business_logic_in_method, hn, hE]

/-- Witness for the amended C1 at the concrete method `c1Method`. -/
theorem c1_two_tier_composition_witness :
    is_business_rule_method true c1Method =
        (has_business_logic_in_method c1Method || textFallback c1Method.bodyText) ∧
      (c1Method.treeFault = true → has_business_logic_in_method c1Method = false) :=
  c1_two_tier_composition c1Method [Stmt.otherStmt, Stmt.otherStmt] rfl rfl (by decide)

/-! ### Claim C2 -/

/-- Claim C2: for every method with a non-empty body and a non-accessor name,
the fault-free tree-based classification returns true iff some top-level
statement is a conditional/loop/switch/try or a throw, or the
local-declaration and return counts with the serialized body length satisfy
one of the three threshold rules; in particular a single top-level `if`
classifies true, three locals plus a return classify true at length ≤ 1000,
and the whole classifier returns false on the two-local variant. -/
theorem c2_tree_classification :
    (∀ (m : MethodNode) (stmts : List Stmt),
      m.hasBody = true → m.body = some stmts → stmts ≠ [] →
      isAccessorName m.name = false → m.treeFault = false →
      (has_business_logic_in_method m = true ↔
        (hasControlOrThrow stmts = true ∨
         (3 ≤ countLocalVars stmts ∧ 1 ≤ countReturns stmts) ∨
         1000 < m.bodyText.length ∨
         (2 ≤ countLocalVars stmts ∧ 1 ≤ countReturns stmts ∧
           500 < m.bodyText.length)))) ∧
    has_business_logic_in_method c2SingleIf = true ∧
    has_business_logic_in_method c2ThreeVars = true ∧
    is_business_rule_method true c2TwoVars = false := by
  refine ⟨?_, by decide, by decide, by decide⟩
  intro m stmts hb hs hne hn hf
  rcases m with ⟨nm, mods, hB, bd, bt, tf⟩
  simp only at hb hs hn hf
  subst hb; subst hs; subst hf
  have hE : stmts.isEmpty = false := by
    cases stmts with
    | nil => exact absurd rfl hne
    | cons a l => rfl
  simp only [has_business_logic_in_method, hE, hn, Bool.false_eq_true, if_false]
  cases htr : hasControlOrThrow stmts with
  | true =>
    rw [scanStmts_of_trigger stmts 0 0 htr]
    simp [htr]
  | false =>
    rw [scanStmts_of_no_trigger stmts 0 0 htr]
    simp only [htr, Bool.false_eq_true, false_or, Nat.zero_add]
    split_ifs with h1 h2 <;> simp <;> omega

/-- Witness for C2's universal part at the single-`if` method. -/
theorem c2_tree_classification_witness :
    has_business_logic_in_method c2SingleIf = true ↔
      (hasControlOrThrow [Stmt.ifStmt] = true ∨
       (3 ≤ countLocalVars [Stmt.ifStmt] ∧ 1 ≤ countReturns [Stmt.ifStmt]) ∨
       1000 < c2SingleIf.bodyText.length ∨
       (2 ≤ countLocalVars [Stmt.ifStmt] ∧ 1 ≤ countReturns [Stmt.ifStmt] ∧
         500 < c2SingleIf.bodyText.length)) :=
  c2_tree_classification.1 c2SingleIf [Stmt.ifStmt] rfl rfl (by decide) (by decide) rfl

/-! ### Claim C3 -/

/-- Claim C3: a method whose name starts with `get`, `set` or `is` is
classified false by both the full classifier and the tree-based path,
regardless of its body, its rendered text, the parser flag, or a fault —
the exclusion precedes any tree-based or text-based analysis. -/
theorem c3_accessor_exclusion : ∀ (hj : Bool) (m : MethodNode),
    isAccessorName m.name = true →
    is_business_rule_method hj m = false ∧ has_business_logic_in_method m = false := by
  intro hj m hn
  rcases m with ⟨nm, mods, hB, bd, bt, tf⟩
  simp only at hn
  cases hB with
  | false => exact ⟨rfl, rfl⟩
  | true =>
    cases bd with
    | none => exact ⟨rfl, rfl⟩
    | some stmts =>
      constructor
      · simp [is_business_rule_method, hn]
      · by_cases hE : stmts.isEmpty <;>
          simp [has_business_logic_in_method, hn, hE]

/-- Witness for C3 at an accessor-named method with control flow in its body. -/
theorem c3_accessor_exclusion_witness :
    isAccessorName c3Method.name = true ∧
    is_business_rule_method true c3Method = false ∧
    has_business_logic_in_method c3Method = false :=
  ⟨by decide, (c3_accessor_exclusion true c3Method (by decide)).1,
    (c3_accessor_exclusion true c3Method (by decide)).2⟩

/-! ### Claim C4 -/

/-- Claim C4: a method whose body is missing (no `body` attribute, or a
`None` body as for abstract declarations) or empty (the empty statement
list, whose Python rendering is the two-character text `[]`) is classified
false by both paths, regardless of its name. -/
theorem c4_missing_or_empty_body : ∀ (hj : Bool) (m : MethodNode),
    m.hasBody = false ∨ m.body = none ∨ (m.body = some [] ∧ m.bodyText = "[]") →
    is_business_rule_method hj m = false ∧ has_business_logic_in_method m = false := by
  intro hj m h
  rcases m with ⟨nm, mods, hB, bd, bt, tf⟩
  rcases h with h | h | ⟨h1, h2⟩
  · simp only at h; subst h; exact ⟨rfl, rfl⟩
  · simp only at h; subst h
    cases hB with
    | false => exact ⟨rfl, rfl⟩
    | true => exact ⟨rfl, rfl⟩
  · simp only at h1 h2; subst h1; subst h2
    cases hB with
    | false => exact ⟨rfl, rfl⟩
    | true =>
      have hc : countCodeLines "[]" = 1 := by decide
      constructor
      · by_cases ha : isAccessorName nm <;>
          simp [is_business_rule_method, ha, has_business_logic_in_method, hc]
      · by_cases ha : isAccessorName nm <;>
          simp [has_business_logic_in_method, ha]

/-- Witness for C4 at the concrete empty-bodied method `c4Method`. -/
theorem c4_missing_or_empty_body_witness :
    is_business_rule_method true c4Method = false ∧
    has_business_logic_in_method c4Method = false :=
  c4_missing_or_empty_body true c4Method (Or.inr (Or.inr ⟨rfl, rfl⟩))

/-! ### Claim C5 -/

/-- Claim C5: whenever a method reaches the text fallback (body present,
non-accessor name, and the tree tier does not return true — because the
parser flag is off, the tree verdict is false, or a fault was absorbed), the
classifier's result is the fallback's: false when fewer than 2 non-blank,
non-comment-only lines, else true iff at least one of the fixed regex
patterns matches the rendered body text. -/
theorem c5_text_fallback_contract : ∀ (hj : Bool) (m : MethodNode) (stmts : List Stmt),
    m.hasBody = true → m.body = some stmts → isAccessorName m.name = false →
    (hj && has_business_logic_in_method m) = false →
    (is_business_rule_method hj m = textFallback m.bodyText ∧
      (textFallback m.bodyText = true ↔
        2 ≤ countCodeLines m.bodyText ∧
          ∃ p ∈ business_rule_text_patterns, p.2 m.bodyText = true)) := by
  intro hj m stmts hb hs hn hT
  constructor
  · rcases m with ⟨nm, mods, hB, bd, bt, tf⟩
    simp only at hb hs hn hT
    subst hb; subst hs
    simp only [is_business_rule_method, hn, Bool.false_eq_true, if_false, hT,
      textFallback]
  · unfold textFallback
    split_ifs with h
    · simp only [false_iff]
      rintro ⟨h2, -⟩
      omega
    · have h2 : 2 ≤ countCodeLines m.bodyText := by omega
      simp [List.any_eq_true, h2]

/-- Witness for C5 at `c5Method`, whose tree verdict is false. -/
theorem c5_text_fallback_contract_witness :
    is_business_rule_method true c5Method = textFallback c5Method.bodyText ∧
      (textFallback c5Method.bodyText = true ↔
        2 ≤ countCodeLines c5Method.bodyText ∧
          ∃ p ∈ business_rule_text_patterns, p.2 c5Method.bodyText = true) :=
  c5_text_fallback_contract true c5Method [Stmt.otherStmt, Stmt.otherStmt]
    rfl rfl (by decide) (by decide)

/-! ### Claim C6 -/

/-- Claim C6: on a readable file, if any entity pattern matches the content
then the file is appended to the entity classification and the business
components are left untouched (the business check is suppressed); and if no
pattern of either fixed list matches, the state is unchanged — the file
appears in neither classification. -/
theorem c6_entity_precedence : ∀ (fp content : String) (st : FileState),
    (matchedOf ENTITY_PATTERNS content ≠ [] →
      (analyze_java_file fp (Except.ok content) st).entity_classes =
          st.entity_classes ++ [(fp, matchedOf ENTITY_PATTERNS content)] ∧
        (analyze_java_file fp (Except.ok content) st).business_components =
          st.business_components) ∧
    (matchedOf ENTITY_PATTERNS content = [] →
      matchedOf BUSINESS_PATTERNS content = [] →
      analyze_java_file fp (Except.ok content) st = st) := by
  intro fp content st
  constructor
  · intro h
    have hE : (matchedOf ENTITY_PATTERNS content).isEmpty = false := by
      cases hM : matchedOf ENTITY_PATTERNS content with
      | nil => exact absurd hM h
      | cons a l => rfl
    simp [analyze_java_file, hE]
  · intro h1 h2
    have hE : (matchedOf ENTITY_PATTERNS content).isEmpty = true := by
      rw [h1]; rfl
    have hB : (matchedOf BUSINESS_PATTERNS content).isEmpty = true := by
      rw [h2]; rfl
    simp [analyze_java_file, hE, hB]

/-- Witness for C6: a file matching both lists lands only among the entities,
and a file matching nothing leaves the state untouched. -/
theorem c6_entity_precedence_witness :
    ((analyze_java_file "/proj/Cliente.java" (Except.ok c6BothContent) fsEmpty).entity_classes =
        fsEmpty.entity_classes ++
          [("/proj/Cliente.java", matchedOf ENTITY_PATTERNS c6BothContent)] ∧
      (analyze_java_file "/proj/Cliente.java" (Except.ok c6BothContent) fsEmpty).business_components =
        fsEmpty.business_components) ∧
    analyze_java_file "/proj/Util.java" (Except.ok c6NoneContent) fsEmpty = fsEmpty :=
  ⟨(c6_entity_precedence "/proj/Cliente.java" c6BothContent fsEmpty).1 (by decide),
    (c6_entity_precedence "/proj/Util.java" c6NoneContent fsEmpty).2 (by decide) (by decide)⟩

/-! ### Claim C7 -/

/-- One `filterMap` entry per input with a `some` image. -/
theorem length_filterMap_eq_length_filter {α β : Type} (f : α → Option β)
    (l : List α) :
    (l.filterMap f).length = (l.filter (fun a => (f a).isSome)).length := by
  induction l with
  | nil => rfl
  | cons a t ih =>
    cases h : f a <;> simp [List.filterMap_cons, List.filter_cons, h, ih]

/-- Claim C7: when no walked file contributes a hint line, the scan's output
is the fixed "not found" sentinel string (never an empty enumeration); when
at least one does, the output is the header plus the lines joined by
newlines, with exactly one line per matching file, and each line names the
file, its matched categories and its full path. -/
theorem c7_db_hint_output : ∀ files : List ConfigFile,
    (files.filterMap db_line = [] →
      capture_database_info files =
        "Não foram encontrados arquivos de configuração de DB comuns (.properties, .xml, .yml).") ∧
    (files.filterMap db_line ≠ [] →
      capture_database_info files =
        "### Arquivos de Configuração de Banco de Dados Encontrados\n"
          ++ joinWith "\n" (files.filterMap db_line)) ∧
    (files.filterMap db_line).length =
      (files.filter (fun c => (db_line c).isSome)).length ∧
    (∀ c ∈ files, ∀ s, db_line c = some s →
      ∃ content, c.content = some content ∧ db_categories content ≠ [] ∧
        s = "- **" ++ c.file ++ "** (" ++ joinWith ", " (db_categories content)
              ++ ") em `" ++ c.filepath ++ "`") := by
  intro files
  refine ⟨?_, ?_, length_filterMap_eq_length_filter db_line files, ?_⟩
  · intro h
    have hE : (files.filterMap db_line).isEmpty = true := by rw [h]; rfl
    simp [capture_database_info, hE]
  · intro h
    have hE : (files.filterMap db_line).isEmpty = false := by
      cases hM : files.filterMap db_line with
      | nil => exact absurd hM h
      | cons a t => rfl
    simp [capture_database_info, hE]
  · intro c hc s hs
    unfold db_line at hs
    by_cases hx : config_file_exts.any (fun ext => endsWithL c.file.data ext.data)
    · rw [if_pos hx] at hs
      cases hcont : c.content with
      | none => rw [hcont] at hs; exact absurd hs (by simp)
      | some content =>
        rw [hcont] at hs
        dsimp only at hs
        by_cases hI : (db_categories content).isEmpty = true
        · rw [if_pos hI] at hs
          exact absurd hs (by simp)
        · rw [if_neg hI] at hs
          refine ⟨content, rfl, ?_, (Option.some_inj.mp hs).symm⟩
          intro hnil
          exact hI (by rw [hnil]; rfl)
    · rw [if_neg hx] at hs
      exact absurd hs (by simp)

/-- Witness for C7: the singleton matching file yields the header form, and
the empty walk yields the sentinel. -/
theorem c7_db_hint_output_witness :
    capture_database_info [c7File] =
      "### Arquivos de Configuração de Banco de Dados Encontrados\n"
        ++ joinWith "\n" ([c7File].filterMap db_line) ∧
    capture_database_info ([] : List ConfigFile) =
      "Não foram encontrados arquivos de configuração de DB comuns (.properties, .xml, .yml)." :=
  ⟨(c7_db_hint_output [c7File]).2.1 (by decide),
    (c7_db_hint_output ([] : List ConfigFile)).1 rfl⟩

/-! ### Claim C8 -/

/-- The classification outcome of `analyze_java_file` depends only on the
entity and business accumulators, not on the log. -/
theorem analyze_java_file_congr_ec_bc : ∀ (f : String) (r : Except String String)
    (s t : FileState),
    s.entity_classes = t.entity_classes →
    s.business_components = t.business_components →
    (analyze_java_file f r s).entity_classes =
        (analyze_java_file f r t).entity_classes ∧
      (analyze_java_file f r s).business_components =
        (analyze_java_file f r t).business_components := by
  intro f r s t he hb
  cases r with
  | error e => exact ⟨he, hb⟩
  | ok content =>
    by_cases hE : (matchedOf ENTITY_PATTERNS content).isEmpty <;>
      by_cases hB : (matchedOf BUSINESS_PATTERNS content).isEmpty <;>
        simp [analyze_java_file, hE, hB, he, hb]

/-- The same congruence, lifted over a whole classification run. -/
theorem run_java_files_congr_ec_bc : ∀ (files : List (String × Except String String))
    (s t : FileState),
    s.entity_classes = t.entity_classes →
    s.business_components = t.business_components →
    (run_java_files files s).entity_classes =
        (run_java_files files t).entity_classes ∧
      (run_java_files files s).business_components =
        (run_java_files files t).business_components := by
  intro files
  induction files with
  | nil => intro s t he hb; exact ⟨he, hb⟩
  | cons f rest ih =>
    intro s t he hb
    have h2 := analyze_java_file_congr_ec_bc f.1 f.2 s t he hb
    exact ih _ _ h2.1 h2.2

/-- Running a concatenation of walked files runs them in sequence. -/
theorem run_java_files_append : ∀ (l1 l2 : List (String × Except String String))
    (s : FileState),
    run_java_files (l1 ++ l2) s = run_java_files l2 (run_java_files l1 s) := by
  intro l1
  induction l1 with
  | nil => intro l2 s; rfl
  | cons f rest ih => intro l2 s; simp [run_java_files, ih]

/-- Claim C8: an unreadable file only appends the read error to the log —
the entity and business classifications are untouched, so the file appears
in neither — and in a whole run the classifications are exactly those of the
same run without the unreadable file: other files are unaffected and the run
continues (the embedding is total, no fault escapes). -/
theorem c8_unreadable_file_isolated : ∀ (fp err : String) (st : FileState)
    (pre post : List (String × Except String String)),
    analyze_java_file fp (Except.error err) st =
        ⟨st.entity_classes, st.business_components,
          st.analysis_log ++ "ERRO ao ler " ++ fp ++ ": " ++ err ++ "\n"⟩ ∧
    (run_java_files (pre ++ (fp, Except.error err) :: post) st).entity_classes =
        (run_java_files (pre ++ post) st).entity_classes ∧
    (run_java_files (pre ++ (fp, Except.error err) :: post) st).business_components =
        (run_java_files (pre ++ post) st).business_components := by
  intro fp err st pre post
  refine ⟨rfl, ?_, ?_⟩
  · rw [run_java_files_append, run_java_files_append]
    show (run_java_files post
        (analyze_java_file fp (Except.error err) (run_java_files pre st))).entity_classes =
      (run_java_files post (run_java_files pre st)).entity_classes
    exact (run_java_files_congr_ec_bc post
      (analyze_java_file fp (Except.error err) (run_java_files pre st))
      (run_java_files pre st) rfl rfl).1
  · rw [run_java_files_append, run_java_files_append]
    show (run_java_files post
        (analyze_java_file fp (Except.error err) (run_java_files pre st))).business_components =
      (run_java_files post (run_java_files pre st)).business_components
    exact (run_java_files_congr_ec_bc post
      (analyze_java_file fp (Except.error err) (run_java_files pre st))
      (run_java_files pre st) rfl rfl).2

/-! ### Claim C9 -/

/-- The `if/elif` classification loop computes the two role-based filters. -/
theorem classify_metrics_spec : ∀ ms : List BusinessRuleMetrics,
    classify_metrics ms =
      (ms.filter (fun m => hasSubCtl m.controller_type),
       ms.filter (fun m => !hasSubCtl m.controller_type && hasSubSvc m.controller_type)) := by
  intro ms
  induction ms with
  | nil => rfl
  | cons m rest ih =>
    simp only [classify_metrics, ih, List.filter_cons]
    by_cases h1 : hasSubCtl m.controller_type <;>
      by_cases h2 : hasSubSvc m.controller_type <;> simp [h1, h2]

/-- Claim C9: the aggregation is total (no division-by-zero fault for any
input); each per-subset average is `0` when the respective subset is empty
and otherwise equals the sum of the subset's business-method counts divided
by the subset size; the grand total is the sum over all records; and the
subsets are exactly the role-substring filters of the input. -/
theorem c9_aggregate_safety : ∀ ms : List BusinessRuleMetrics,
    ((analyze_business_rules ms).controllers =
        ms.filter (fun m => hasSubCtl m.controller_type)) ∧
    ((analyze_business_rules ms).services =
        ms.filter (fun m => !hasSubCtl m.controller_type && hasSubSvc m.controller_type)) ∧
    ((analyze_business_rules ms).controllers = [] →
      (analyze_business_rules ms).avg_business_methods_per_controller = 0) ∧
    ((analyze_business_rules ms).controllers ≠ [] →
      (analyze_business_rules ms).avg_business_methods_per_controller =
        (sumBusinessMethods (analyze_business_rules ms).controllers : ℚ) /
          (((analyze_business_rules ms).controllers.length : ℚ))) ∧
    ((analyze_business_rules ms).services = [] →
      (analyze_business_rules ms).avg_business_methods_per_service = 0) ∧
    ((analyze_business_rules ms).services ≠ [] →
      (analyze_business_rules ms).avg_business_methods_per_service =
        (sumBusinessMethods (analyze_business_rules ms).services : ℚ) /
          (((analyze_business_rules ms).services.length : ℚ))) ∧
    (analyze_business_rules ms).total_business_methods = sumBusinessMethods ms := by
  intro ms
  refine ⟨?_, ?_, ?_, ?_, ?_, ?_, ?_⟩
  · show (classify_metrics ms).1 = _
    rw [classify_metrics_spec]
  · show (classify_metrics ms).2 = _
    rw [classify_metrics_spec]
  · intro h
    show (if (classify_metrics ms).1.isEmpty then (0 : ℚ) else _) = 0
    have hE : (classify_metrics ms).1.isEmpty = true := by
      have h' : (classify_metrics ms).1 = [] := h
      rw [h']; rfl
    rw [if_pos hE]
  · intro h
    have hE : ¬((classify_metrics ms).1.isEmpty = true) := by
      cases hM : (classify_metrics ms).1 with
      | nil => exact absurd hM h
      | cons a t => simp
    show (if (classify_metrics ms).1.isEmpty then (0 : ℚ) else
        (sumBusinessMethods (classify_metrics ms).1 : ℚ) /
          ((classify_metrics ms).1.length : ℚ)) = _
    rw [if_neg hE]
    rfl
  · intro h
    show (if (classify_metrics ms).2.isEmpty then (0 : ℚ) else _) = 0
    have hE : (classify_metrics ms).2.isEmpty = true := by
      have h' : (classify_metrics ms).2 = [] := h
      rw [h']; rfl
    rw [if_pos hE]
  · intro h
    have hE : ¬((classify_metrics ms).2.isEmpty = true) := by
      cases hM : (classify_metrics ms).2 with
      | nil => exact absurd hM h
      | cons a t => simp
    show (if (classify_metrics ms).2.isEmpty then (0 : ℚ) else
        (sumBusinessMethods (classify_metrics ms).2 : ℚ) /
          ((classify_metrics ms).2.length : ℚ)) = _
    rw [if_neg hE]
    rfl
  · show (if ms.isEmpty then 0 else sumBusinessMethods ms) = sumBusinessMethods ms
    cases ms with
    | nil => rfl
    | cons a t => rfl

/-- Witness for C9: one Controller record, no Service records. -/
theorem c9_aggregate_safety_witness :
    (analyze_business_rules [c9Controller]).avg_business_methods_per_controller =
        (sumBusinessMethods (analyze_business_rules [c9Controller]).controllers : ℚ) /
          (((analyze_business_rules [c9Controller]).controllers.length : ℚ)) ∧
    (analyze_business_rules [c9Controller]).avg_business_methods_per_service = 0 :=
  ⟨(c9_aggregate_safety [c9Controller]).2.2.2.1 (by decide),
    (c9_aggregate_safety [c9Controller]).2.2.2.2.1 (by decide)⟩

/-! ### Claim C10 -/

/-- The per-type counting loop computes the public-method count, the count
of public business-rule methods, and their names in declaration order. -/
theorem count_methods_spec : ∀ (hj : Bool) (methods : List MethodNode),
    count_methods hj methods =
      ((methods.filter (fun mm => mm.modifiers.contains "public")).length,
       (methods.filter (fun mm =>
          mm.modifiers.contains "public" && is_business_rule_method hj mm)).length,
       (methods.filter (fun mm =>
          mm.modifiers.contains "public" && is_business_rule_method hj mm)).map
         MethodNode.name) := by
  intro hj methods
  induction methods with
  | nil => rfl
  | cons m rest ih =>
    simp only [count_methods, ih, List.filter_cons]
    by_cases h1 : "public" ∈ m.modifiers <;>
      by_cases h2 : is_business_rule_method hj m <;> simp [h1, h2]

/-- A conjunctive filter never keeps more elements than its left conjunct. -/
theorem length_filter_and_le {α : Type} (p q : α → Bool) (l : List α) :
    (l.filter (fun a => p a && q a)).length ≤ (l.filter p).length := by
  induction l with
  | nil => simp
  | cons a t ih =>
    simp only [List.filter_cons]
    by_cases h1 : p a <;> by_cases h2 : q a <;> simp [h1, h2] <;> omega

/-- Claim C10: every record `analyze_java_file_ast` emits is well-formed:
its public-method count is at least 1 (zero-public-method types are
dropped), its business-method count is bounded by its public-method count,
and its name list has exactly business-method-count entries; moreover the
record comes from a declared type whose public business-rule methods, in
declaration order, are exactly the listed names. -/
theorem c10_record_invariants : ∀ (hj : Bool) (fp : String)
    (parsed : Option (List TypeDecl)) (l : List BusinessRuleMetrics),
    analyze_java_file_ast hj fp parsed = some l →
    ∀ r ∈ l,
      1 ≤ r.public_methods ∧
      r.business_methods ≤ r.public_methods ∧
      r.business_method_names.length = r.business_methods ∧
      ∃ tds, parsed = some tds ∧ ∃ td ∈ tds,
        r.public_methods =
            (td.methods.filter (fun mm => mm.modifiers.contains "public")).length ∧
        r.business_method_names =
            (td.methods.filter (fun mm =>
               mm.modifiers.contains "public" && is_business_rule_method hj mm)).map
              MethodNode.name := by
  intro hj fp parsed l hEq r hr
  cases hj with
  | false => exact absurd hEq (by simp [analyze_java_file_ast])
  | true =>
    cases parsed with
    | none => exact absurd hEq (by simp [analyze_java_file_ast])
    | some tds =>
      simp only [analyze_java_file_ast, Bool.not_true, Bool.false_eq_true, if_false] at hEq
      by_cases hM : (tds.filterMap (fun td =>
          if 0 < (count_methods true td.methods).1 then
            some (⟨td.name, fp, class_type_of td.name, (count_methods true td.methods).1,
              (count_methods true td.methods).2.1,
              (count_methods true td.methods).2.2⟩ : BusinessRuleMetrics)
          else none)).isEmpty = true
      · rw [if_pos hM] at hEq
        exact absurd hEq (by simp)
      · rw [if_neg hM] at hEq
        have hl := (Option.some_inj.mp hEq).symm
        subst hl
        rw [List.mem_filterMap] at hr
        obtain ⟨td, htd, hf⟩ := hr
        by_cases h0 : 0 < (count_methods true td.methods).1
        · rw [if_pos h0] at hf
          have hrec := (Option.some_inj.mp hf).symm
          subst hrec
          have hspec := count_methods_spec true td.methods
          refine ⟨?_, ?_, ?_, tds, rfl, td, htd, ?_, ?_⟩
          · simpa using h0
          · show (count_methods true td.methods).2.1 ≤ (count_methods true td.methods).1
            rw [hspec]
            exact length_filter_and_le _ _ td.methods
          · show (count_methods true td.methods).2.2.length =
              (count_methods true td.methods).2.1
            rw [hspec]
            exact List.length_map _ _
          · show (count_methods true td.methods).1 = _
            rw [hspec]
          · show (count_methods true td.methods).2.2 = _
            rw [hspec]
        · rw [if_neg h0] at hf
          exact absurd hf (by simp)

/-- Witness for C10 at a one-class, one-method parse result. -/
theorem c10_record_invariants_witness :
    1 ≤ c10Record.public_methods ∧
    c10Record.business_methods ≤ c10Record.public_methods ∧
    c10Record.business_method_names.length = c10Record.business_methods ∧
    ∃ tds, some [c10Type] = some tds ∧ ∃ td ∈ tds,
      c10Record.public_methods =
          (td.methods.filter (fun mm => mm.modifiers.contains "public")).length ∧
      c10Record.business_method_names =
          (td.methods.filter (fun mm =>
             mm.modifiers.contains "public" && is_business_rule_method true mm)).map
            MethodNode.name :=
  c10_record_invariants true "/proj/PedidoService.java" (some [c10Type]) [c10Record]
    (by decide) c10Record (by decide)
